import Mathlib

/-!
The plugin kubectl-editfile: a verification development.

A shallow embedding of `main.go` (the `kubectl editfile` plugin) and theorems about it.

Conventions of the embedding.

* A Go `string` is an immutable sequence of bytes: `GoString := List UInt8`.  A Go string
  literal denotes the UTF-8 bytes of its source text (`lit`).
* A Go function that talks to the outside world is a function of the answers the outside
  world gives (the result of running a command, the communication a `select` proceeds
  with, ...) and returns the list of the observable events it performs together with the
  way it ends.
* A value of interface or pointer type that may be `nil` is an `Option`; calling a method
  that dereferences a `nil` receiver is a run-time panic.
-/

set_option autoImplicit false

namespace EditFile

/-! ## Strings -/

/-- A Go string: a sequence of bytes. -/
abbrev GoString := List UInt8

/-- A Go string literal: the UTF-8 encoding of the text between the quotes. -/
def lit (s : String) : GoString := s.data.flatMap String.utf8EncodeChar

/-- The byte of the separator `":"`. -/
def colon : UInt8 := ':'.toUInt8

/-- Search of `strings.Index`, scanning `s` from byte offset `i` of the original string:
the offset of the first position at which `substr` occurs, or `-1`. -/
def stringsIndexFrom (substr : GoString) : GoString → Nat → Int
  | [], i => if substr = [] then (i : Int) else -1
  | c :: cs, i =>
    if substr.isPrefixOf (c :: cs) then (i : Int) else stringsIndexFrom substr cs (i + 1)

/-- Go `strings.Index(s, substr)`: the index of the first instance of `substr` in `s`, or
`-1` if `substr` is not present in `s`. -/
def stringsIndex (s substr : GoString) : Int := stringsIndexFrom substr s 0

/-- Go `strings.Join(elems, sep)`. -/
def stringsJoin : List GoString → GoString → GoString
  | [], _ => []
  | [a], _ => a
  | a :: b :: rest, sep => a ++ sep ++ stringsJoin (b :: rest) sep

/-- Source `splitPodAndPath` (main.go 125-132):
`i := strings.Index(s, ":")`; `("", "")` when `i == -1`, else `(s[:i], s[i+1:])`. -/
def splitPodAndPath (s : GoString) : GoString × GoString :=
  let i := stringsIndex s (lit ":")
  if i = -1 then
    ([], [])
  else
    (s.take i.toNat, s.drop (i.toNat + 1))

/-! ### The specification's reading of a malformed argument -/

/-- The text before the first `':'` of `s` (all of `s` when it has none). -/
def beforeFirstColon (s : GoString) : GoString := s.takeWhile (fun b => b != colon)

/-- The text after the first `':'` of `s` (empty when it has none). -/
def afterFirstColon (s : GoString) : GoString := (s.dropWhile (fun b => b != colon)).drop 1

/-- The specification's malformed positional argument: no `':'` separator, or either side
of the first `':'` empty. -/
def malformed (s : GoString) : Prop :=
  colon ∉ s ∨ beforeFirstColon s = [] ∨ afterFirstColon s = []

/-! ## The remote file and the copy command -/

/-- Source `RemoteFile` (main.go 17-25).  The field `local` of the source is `local_`
here, `local` being a keyword. -/
structure RemoteFile where
  Binary : GoString
  Namespace : GoString
  Pod : GoString
  Container : GoString
  Path : GoString
  local_ : GoString
  tmp : GoString
  deriving DecidableEq, Repr

/-- An `io.Writer` that is an open file, named by its descriptor.  An argument of type
`io.Writer` is an `Option Writer`, `none` being the `nil` interface value. -/
structure Writer where
  fd : Nat
  deriving DecidableEq, Repr

/-- Go `os.Stdout`. -/
def osStdout : Writer := ⟨1⟩

/-- Go `os.Stderr`. -/
def osStderr : Writer := ⟨2⟩

/-- An `error` value, given by the text of its `Error()` method. -/
abbrev GoError := GoString

/-- The observable actions of the program, in the order they are performed. -/
inductive Event
  /-- `ioutil.TempDir` created the directory `dir`. -/
  | TempDir (dir : GoString)
  /-- `w.Write(p)`. -/
  | Write (w : Writer) (p : GoString)
  /-- `cmd.Run()` of `exec.Command(name, args...)` with `cmd.Stdout`, `cmd.Stderr` set:
  the command is started and waited for. -/
  | Run (name : GoString) (args : List GoString) (stdout stderr : Option Writer)
  /-- `editCmd.Start()` of `exec.Command(name, args...)`. -/
  | Start (name : GoString) (args : List GoString)
  /-- `watcher.Add(path)`. -/
  | WatcherAdd (path : GoString)
  /-- `watcher.Close()`. -/
  | WatcherClose
  /-- Control enters `file.Upload`. -/
  | UploadCall
  /-- The call of `file.Upload` returns to the loop. -/
  | UploadReturn
  /-- `editCmd.Process.Kill()`. -/
  | Kill
  /-- `log.Println(v...)`. -/
  | Println (v : List GoString)
  /-- `log.Fatal(v...)`: the message is logged and the process exits through `os.Exit(1)`. -/
  | Fatal (v : List GoString)
  /-- `os.RemoveAll(path)`, the body of `RemoteFile.Close`. -/
  | RemoveAll (path : GoString)
  deriving DecidableEq, Repr

/-- How a call of a Go function of result type `error` ends. -/
inductive Ret
  | returned (err : Option GoError)
  | panicked
  deriving DecidableEq, Repr

/-- Source `RemoteFile.baseArgs` (main.go 146-155). -/
def RemoteFile.baseArgs (r : RemoteFile) : List GoString :=
  let args := [lit "cp"]
  let args := if [] ≠ r.Namespace then args ++ [lit "-n", r.Namespace] else args
  let args := if [] ≠ r.Container then args ++ [lit "-c", r.Container] else args
  args

/-- Source `RemoteFile.remoteSpec` (main.go 157-159): `fmt.Sprintf("%s:%s", r.Pod, r.Path)`. -/
def RemoteFile.remoteSpec (r : RemoteFile) : GoString :=
  r.Pod ++ lit ":" ++ r.Path

/-- Source `RemoteFile.Local` (main.go 165-167). -/
def RemoteFile.Local (r : RemoteFile) : GoString := r.local_

/-- Source `RemoteFile.Close` (main.go 161-163): `os.RemoveAll(r.tmp)`. -/
def RemoteFile.Close (r : RemoteFile) : List Event := [Event.RemoveAll r.tmp]

/-- Source `RemoteFile.Download` (main.go 169-175).  `run` is what `cmd.Run()` returns. -/
def RemoteFile.Download (r : RemoteFile) (stdout stderr : Option Writer)
    (run : Option GoError) : List Event × Ret :=
  let args := r.baseArgs ++ [r.remoteSpec, r.Local]
  ([Event.Run r.Binary args stdout stderr], Ret.returned run)

/-- Source `RemoteFile.Upload` (main.go 177-185).  `run` is what `cmd.Run()` returns.
The two `stderr.Write` calls come first: on a `nil` `stderr` the first of them is a method
call on a nil interface value, a run-time panic, and nothing after it is executed.
`fmt.Sprintf("%s %s", a, b)` is `a`, a space, `b`. -/
def RemoteFile.Upload (r : RemoteFile) (stdout stderr : Option Writer)
    (run : Option GoError) : List Event × Ret :=
  let args := r.baseArgs ++ [r.Local, r.remoteSpec]
  match stderr with
  | none => ([], Ret.panicked)
  | some w =>
    ([Event.Write w (r.Binary ++ lit " " ++ stringsJoin args (lit " ")),
      Event.Write w ['\n'.toUInt8],
      Event.Run r.Binary args stdout stderr], Ret.returned run)

/-! ## The editor process and the watcher -/

/-- Go `os.ProcessState`, as far as the program looks at it: `exited` is true when the
process ended by calling exit, false when it was terminated by a signal. -/
structure ProcessState where
  exited : Bool
  deriving DecidableEq, Repr

/-- Go `(*os.ProcessState).Exited()` on a non-nil receiver. -/
def ProcessState.Exited (p : ProcessState) : Bool := p.exited

/-- The bit `fsnotify.Write` of an `fsnotify.Op` (the library declares
`Create Op = 1 << iota` followed by `Write`). -/
def fsnotifyWrite : Nat := 2

/-- A communication of the `select` statement of the loop (main.go 88-116) together with
the values it receives. -/
inductive Comm
  /-- `case <-editorExited`. -/
  | editorExited
  /-- `case event, ok := <-watcher.Events`, with `Op` the field `event.Op`. -/
  | Events (ok : Bool) (Op : Nat)
  /-- `case err, ok := <-watcher.Errors`. -/
  | Errors (ok : Bool) (err : GoError)
  deriving DecidableEq, Repr

/-- What the outside world presents to one iteration of the loop.

`ready` lists the communications of the `select` that can proceed when it is evaluated
and `choice` is the outcome of the choice the Go run time makes among them (the language
specification: when one or more communications can proceed, a single one is chosen by a
uniform pseudo-random selection; the order of the cases plays no part).  `ProcessState`
is the field `editCmd.ProcessState` as the iteration reads it: `nil` until `editCmd.Wait`
has returned in the waiting goroutine.  `run` and `kill` are what `cmd.Run()` inside
`Upload` and `editCmd.Process.Kill()` return should the iteration call them. -/
structure Tick where
  ready : List Comm
  choice : Nat
  ProcessState : Option ProcessState
  run : Option GoError
  kill : Option GoError
  deriving DecidableEq, Repr

/-- The communication the `select` proceeds with; `none` when none can proceed (the
statement has no `default` case and blocks). -/
def Tick.selected (t : Tick) : Option Comm :=
  t.ready[t.choice % t.ready.length]?

/-- How the loop ends. -/
inductive LoopEnd
  /-- Left by the `break` under `if shutdown`. -/
  | shutdown
  /-- Ended inside `log.Fatal`. -/
  | fatal
  /-- Ended by a run-time panic. -/
  | panicked
  /-- Blocked in `select` with nothing more to receive. -/
  | waiting
  deriving DecidableEq, Repr

/-- The statements shared by the two fatal branches of the loop (main.go 98-103 and
110-115):

    if !editCmd.ProcessState.Exited() { if kerr := editCmd.Process.Kill(); kerr != nil
      { log.Println("error stopping editor:", kerr) } }
    log.Fatal(err)

`Exited` reads a field of its receiver, so on a `nil` `editCmd.ProcessState` the
condition panics.  When `ProcessState` is set the process was started and
`editCmd.Process` is not nil. -/
def stopEditorAndFail (ps : Option ProcessState) (kill : Option GoError) (err : GoError) :
    List Event × LoopEnd :=
  match ps with
  | none => ([], LoopEnd.panicked)
  | some p =>
    if !p.Exited then
      match kill with
      | some kerr =>
        ([Event.Kill, Event.Println [lit "error stopping editor:", kerr], Event.Fatal [err]],
          LoopEnd.fatal)
      | none => ([Event.Kill, Event.Fatal [err]], LoopEnd.fatal)
    else
      ([Event.Fatal [err]], LoopEnd.fatal)

/-- The `for { select { ... } }` loop of `main` (main.go 86-122), one `Tick` per
iteration, with the two arguments of the call `file.Upload(_, _)` as parameters
(`main` passes `nil, nil`).  A receive with `ok == false` leaves the `select` by `break`
and the loop goes round again. -/
def syncLoop (file : RemoteFile) (stdout stderr : Option Writer) :
    List Tick → List Event × LoopEnd
  | [] => ([], LoopEnd.waiting)
  | t :: ts =>
    match t.selected with
    | none => ([], LoopEnd.waiting)
    | some Comm.editorExited => ([Event.Println [lit "Shutting down."]], LoopEnd.shutdown)
    | some (Comm.Events false _) => syncLoop file stdout stderr ts
    | some (Comm.Events true op) =>
      if op &&& fsnotifyWrite = fsnotifyWrite then
        match file.Upload stdout stderr t.run with
        | (evs, Ret.panicked) => (Event.UploadCall :: evs, LoopEnd.panicked)
        | (evs, Ret.returned none) =>
          let rest := syncLoop file stdout stderr ts
          (Event.UploadCall :: evs ++ Event.UploadReturn :: rest.1, rest.2)
        | (evs, Ret.returned (some err)) =>
          let stop := stopEditorAndFail t.ProcessState t.kill err
          (Event.UploadCall :: evs ++ Event.UploadReturn :: stop.1, stop.2)
      else
        syncLoop file stdout stderr ts
    | some (Comm.Errors false _) => syncLoop file stdout stderr ts
    | some (Comm.Errors true err) => stopEditorAndFail t.ProcessState t.kill err

/-! ## The program -/

/-- What the outside world answers to one run of the program.  The flag values are those
left by a `flag.Parse` that returned. -/
structure Env where
  /-- Result of `ioutil.TempDir("", "kubectl_editfile")`. -/
  TempDir : Except GoError GoString
  /-- Go `path.Join` of two elements. -/
  Join : GoString → GoString → GoString
  /-- Value of the flag `-kubectl` (default `"kubectl"`). -/
  kubectl : GoString
  /-- Value of the flag `-n` (default `""`). -/
  n : GoString
  /-- Value of the flag `-c` (default `""`). -/
  c : GoString
  /-- Go `flag.Arg(0)`: the first positional argument, `""` when there is none. -/
  Arg0 : GoString
  /-- Result of `cmd.Run()` in `Download`. -/
  download : Option GoError
  /-- Error of `fsnotify.NewWatcher()`. -/
  NewWatcher : Option GoError
  /-- Go `os.Getenv("EDITOR")`. -/
  EDITOR : GoString
  /-- Result of `editCmd.Start()`; on an error `editCmd.Process` stays `nil`. -/
  Start : Option GoError
  /-- Result of `watcher.Add(file.Local())`. -/
  Add : Option GoError
  /-- Result of `editCmd.Process.Kill()` in the branch of a failed `watcher.Add`. -/
  kill : Option GoError
  /-- The iterations of the loop. -/
  schedule : List Tick

/-- The value `&RemoteFile{tmp: tmp, local: path.Join(tmp, "edit")}` built by `New`; the
other fields are zero. -/
def scratchFile (env : Env) (tmp : GoString) : RemoteFile :=
  { Binary := [], Namespace := [], Pod := [], Container := [], Path := [],
    tmp := tmp, local_ := env.Join tmp (lit "edit") }

/-- Source `New` (main.go 134-144). -/
def New (env : Env) : List Event × Except GoError RemoteFile :=
  match env.TempDir with
  | Except.error err => ([], Except.error err)
  | Except.ok tmp => ([Event.TempDir tmp], Except.ok (scratchFile env tmp))

/-- How the process ends: with an exit status (0 on return from `main`, 1 from
`os.Exit(1)` inside `log.Fatal`, 2 after a panic), or never, blocked in `select`. -/
inductive Exit
  | status (code : Nat)
  | waiting
  deriving DecidableEq, Repr

/-- The file of `main` once the flag values and the two halves of the positional argument
are stored in it (main.go 34-46). -/
def sessionFile (env : Env) (file : RemoteFile) : RemoteFile :=
  { file with Binary := env.kubectl, Namespace := env.n, Container := env.c,
              Pod := (splitPodAndPath env.Arg0).1, Path := (splitPodAndPath env.Arg0).2 }

/-- The part of `main` from the launch of the editor to the end of the loop
(main.go 62-122).  The error returned by `editCmd.Start()` is discarded by the source; a
failed start leaves `editCmd.Process` nil, and `Kill` on a nil `*os.Process` panics. -/
def editSession (env : Env) (file : RemoteFile) : List Event × LoopEnd :=
  let editor := if env.EDITOR = [] then lit "nano" else env.EDITOR
  let launch := [Event.Start editor [file.Local], Event.WatcherAdd file.Local]
  match env.Add with
  | some err =>
    match env.Start with
    | some _ => (launch, LoopEnd.panicked)
    | none =>
      match env.kill with
      | some kerr =>
        (launch ++ [Event.Kill, Event.Println [lit "error stopping editor:", kerr],
            Event.Fatal [err]], LoopEnd.fatal)
      | none => (launch ++ [Event.Kill, Event.Fatal [err]], LoopEnd.fatal)
  | none =>
    let loop := syncLoop file none none env.schedule
    (launch ++ loop.1, loop.2)

/-- How the process ends when `main`, having performed `pre`, ends in the way `e` with
the calls `deferred` pending.  Deferred calls are executed when `main` returns and when a
panic unwinds it; they are not executed on a path that ends in `log.Fatal`, which leaves
through `os.Exit(1)`. -/
def exitWith (pre deferred : List Event) : LoopEnd → List Event × Exit
  | LoopEnd.shutdown => (pre ++ deferred, Exit.status 0)
  | LoopEnd.fatal => (pre, Exit.status 1)
  | LoopEnd.panicked => (pre ++ deferred, Exit.status 2)
  | LoopEnd.waiting => (pre, Exit.waiting)

/-- Source `main` (main.go 27-123).  `defer file.Close()` is registered once `New` has
returned, `defer watcher.Close()` once `fsnotify.NewWatcher` has; they run last-in
first-out. -/
def main (env : Env) : List Event × Exit :=
  match New env with
  | (evs, Except.error err) => exitWith (evs ++ [Event.Fatal [err]]) [] LoopEnd.fatal
  | (evs, Except.ok file) =>
    let file := sessionFile env file
    if file.Pod = [] ∨ file.Path = [] then
      exitWith (evs ++ [Event.Fatal [lit "invalid or missing pod and path"]]) file.Close
        LoopEnd.fatal
    else
      let dl := file.Download (some osStdout) (some osStderr) env.download
      match dl.2 with
      | Ret.panicked => exitWith (evs ++ dl.1) file.Close LoopEnd.panicked
      | Ret.returned (some err) =>
        exitWith (evs ++ dl.1 ++ [Event.Fatal [err]]) file.Close LoopEnd.fatal
      | Ret.returned none =>
        match env.NewWatcher with
        | some err => exitWith (evs ++ dl.1 ++ [Event.Fatal [err]]) file.Close LoopEnd.fatal
        | none =>
          let ses := editSession env file
          exitWith (evs ++ dl.1 ++ ses.1) (Event.WatcherClose :: file.Close) ses.2

/-! ## Sample inputs -/

/-- An iteration in which nothing is ready: the base of the sample iterations. -/
def idleTick : Tick :=
  { ready := [], choice := 0, ProcessState := none, run := none, kill := none }

/-- A run in which everything succeeds up to the loop and no event is delivered:
`kubectl editfile pod-name:/remote/path` with `EDITOR` unset. -/
def sampleEnv : Env :=
  { TempDir := Except.ok (lit "/tmp/kubectl_editfile1"),
    Join := fun a b => a ++ lit "/" ++ b,
    kubectl := lit "kubectl", n := [], c := [], Arg0 := lit "pod-name:/remote/path",
    download := none, NewWatcher := none, EDITOR := [], Start := none, Add := none,
    kill := none, schedule := [] }

/-- The file of the sample run. -/
def sampleFile : RemoteFile :=
  { Binary := lit "kubectl", Namespace := lit "prod", Pod := lit "pod-name",
    Container := [], Path := lit "/remote/path",
    local_ := lit "/tmp/kubectl_editfile1/edit", tmp := lit "/tmp/kubectl_editfile1" }

/-- A small file given byte by byte: binary `k`, no namespace, container `c1`, pod `p`,
path `/f`, local copy `/t/edit` in the scratch directory `/t`. -/
def tinyFile : RemoteFile :=
  { Binary := [107], Namespace := [], Pod := [112], Container := [99, 49],
    Path := [47, 102], local_ := [47, 116, 47, 101, 100, 105, 116], tmp := [47, 116] }

/-- An iteration in which a write event is the only thing ready, while the editor is
still running. -/
def writeTick : Tick := { idleTick with ready := [Comm.Events true fsnotifyWrite] }

/-- An iteration in which the editor-exit signal and a write event are both ready and the
run time picks the write event. -/
def raceTick : Tick :=
  { idleTick with ready := [Comm.editorExited, Comm.Events true fsnotifyWrite], choice := 1,
                  ProcessState := some { exited := true } }

/-- An iteration in which the editor-exit signal is the only thing ready. -/
def exitTick : Tick :=
  { idleTick with ready := [Comm.editorExited], ProcessState := some { exited := true } }

/-- An iteration in which the editor-exit signal is the only thing ready after a failed
`editCmd.Start()`: `editCmd.Wait` returned at once and `editCmd.ProcessState` is nil. -/
def notStartedTick : Tick := { idleTick with ready := [Comm.editorExited] }

/-- An iteration in which the watcher delivers an error while the editor is still
running (`editCmd.Wait` has not returned). -/
def watcherErrorTick : Tick := { idleTick with ready := [Comm.Errors true (lit "boom")] }

/-! ## Observations on a trace -/

/-- The bytes the events `evs` write to the writer `w`, in order. -/
def written (w : Writer) : List Event → GoString
  | [] => []
  | Event.Write w' p :: rest => if w' = w then p ++ written w rest else written w rest
  | _ :: rest => written w rest

/-- The change an event makes to the number of `Upload` calls in progress. -/
def uploadDelta : Event → Int
  | Event.UploadCall => 1
  | Event.UploadReturn => -1
  | _ => 0

/-- The number of `Upload` calls in progress after the events `evs`: calls entered minus
calls returned. -/
def uploadsInProgress (evs : List Event) : Int := (evs.map uploadDelta).sum

/-- Every prefix of the trace `evs` has zero or one `Upload` call in progress. -/
def AtMostOneUpload (evs : List Event) : Prop :=
  ∀ k, 0 ≤ uploadsInProgress (evs.take k) ∧ uploadsInProgress (evs.take k) ≤ 1

end EditFile

/-! # Theorems -/

namespace EditFile


/-! ## Lemmas on strings -/

theorem lit_colon : lit ":" = [colon] := by decide

theorem stringsIndexFrom_colon_append (A B : GoString) (i : Nat) (h : colon ∉ A) :
    stringsIndexFrom [colon] (A ++ colon :: B) i = ((i + A.length : Nat) : Int) := by
  induction A generalizing i with
  | nil => simp [stringsIndexFrom, List.isPrefixOf]
  | cons a A ih =>
    have ha : colon ≠ a := fun e => h (e ▸ List.mem_cons_self _ _)
    have hA : colon ∉ A := fun m => h (List.mem_cons_of_mem _ m)
    have hp : ([colon] : GoString).isPrefixOf (a :: (A ++ colon :: B)) = false := by
      simp [List.isPrefixOf, ha]
    rw [List.cons_append, stringsIndexFrom, hp, if_neg (by simp), ih (i + 1) hA,
      List.length_cons]
    congr 1
    omega

theorem stringsIndexFrom_colon_absent (s : GoString) (i : Nat) (h : colon ∉ s) :
    stringsIndexFrom [colon] s i = -1 := by
  induction s generalizing i with
  | nil => simp [stringsIndexFrom]
  | cons a s ih =>
    have ha : colon ≠ a := fun e => h (e ▸ List.mem_cons_self _ _)
    have hs : colon ∉ s := fun m => h (List.mem_cons_of_mem _ m)
    simp [stringsIndexFrom, List.isPrefixOf, ha, ih (i + 1) hs]

theorem splitPodAndPath_colon_append (A B : GoString) (h : colon ∉ A) :
    splitPodAndPath (A ++ colon :: B) = (A, B) := by
  have hi : stringsIndex (A ++ colon :: B) (lit ":") = (A.length : Int) := by
    rw [lit_colon, stringsIndex, stringsIndexFrom_colon_append A B 0 h]
    simp
  have hne : ¬ ((A.length : Int) = -1) := by omega
  simp [splitPodAndPath, hi, hne]

theorem splitPodAndPath_colon_absent (s : GoString) (h : colon ∉ s) :
    splitPodAndPath s = ([], []) := by
  simp [splitPodAndPath, stringsIndex, lit_colon, stringsIndexFrom_colon_absent s 0 h]

theorem colon_not_mem_beforeFirstColon (s : GoString) : colon ∉ beforeFirstColon s := by
  intro hm
  have := List.mem_takeWhile_imp hm
  simp at this

theorem eq_before_colon_after (s : GoString) (h : colon ∈ s) :
    s = beforeFirstColon s ++ colon :: afterFirstColon s := by
  induction s with
  | nil => simp at h
  | cons a s ih =>
    by_cases ha : a = colon
    · subst ha
      simp [beforeFirstColon, afterFirstColon, List.takeWhile, List.dropWhile]
    · have hs : colon ∈ s := by
        rcases List.mem_cons.mp h with e | m
        · exact absurd e.symm ha
        · exact m
      have := ih hs
      simp only [beforeFirstColon, afterFirstColon] at this ⊢
      have hb : (a != colon) = true := by simpa using ha
      rw [List.takeWhile_cons, List.dropWhile_cons, hb]
      simpa using this


theorem rejected_iff_malformed (s : GoString) :
    ((splitPodAndPath s).1 = [] ∨ (splitPodAndPath s).2 = []) ↔ malformed s := by
  by_cases h : colon ∈ s
  · have hs := splitPodAndPath_colon_append (beforeFirstColon s) (afterFirstColon s)
      (colon_not_mem_beforeFirstColon s)
    rw [← eq_before_colon_after s h] at hs
    simp [hs, malformed, h]
  · simp [splitPodAndPath_colon_absent s h, malformed, h]

theorem main_of_rejected (env : Env) (tmp : GoString) (ht : env.TempDir = Except.ok tmp)
    (h : (splitPodAndPath env.Arg0).1 = [] ∨ (splitPodAndPath env.Arg0).2 = []) :
    main env = ([Event.TempDir tmp, Event.Fatal [lit "invalid or missing pod and path"]],
      Exit.status 1) := by
  simp [main, New, ht, sessionFile, h, exitWith]

theorem main_of_TempDir_error (env : Env) (err : GoError) (ht : env.TempDir = Except.error err) :
    main env = ([Event.Fatal [err]], Exit.status 1) := by
  simp [main, New, ht, exitWith]

theorem main_of_accepted (env : Env) (tmp : GoString) (ht : env.TempDir = Except.ok tmp)
    (h : ¬ ((splitPodAndPath env.Arg0).1 = [] ∨ (splitPodAndPath env.Arg0).2 = [])) :
    ∃ n a o e rest, (main env).1 = Event.TempDir tmp :: Event.Run n a o e :: rest := by
  simp only [main, New, ht, sessionFile, if_neg h, RemoteFile.Download]
  cases env.download with
  | some err => exact ⟨_, _, _, _, _, rfl⟩
  | none =>
    cases env.NewWatcher with
    | some err => exact ⟨_, _, _, _, _, rfl⟩
    | none =>
      generalize editSession env _ = r
      obtain ⟨ses, e⟩ := r
      cases e <;> exact ⟨_, _, _, _, _, rfl⟩


/-- C1: for a non-empty `A` without `':'` and a non-empty `B` (which may contain `':'`),
`splitPodAndPath (A ++ ":" ++ B)` is `(A, B)`: the split is at the first `':'` only. -/
theorem splitPodAndPath_wellformed (A B : GoString) (_hA : A ≠ []) (_hB : B ≠ [])
    (hc : colon ∉ A) : splitPodAndPath (A ++ lit ":" ++ B) = (A, B) := by
  rw [lit_colon, List.append_assoc]
  exact splitPodAndPath_colon_append A B hc

/-- C1 at the input of `TestSplitPodAndPath`: `"pod-name:/remote/path"` splits into
`"pod-name"` and `"/remote/path"`. -/
theorem splitPodAndPath_wellformed_witness :
    lit "pod-name" ≠ [] ∧ lit "/remote/path" ≠ [] ∧ colon ∉ lit "pod-name" ∧
      lit "pod-name" ++ lit ":" ++ lit "/remote/path" = lit "pod-name:/remote/path" ∧
      splitPodAndPath (lit "pod-name" ++ lit ":" ++ lit "/remote/path")
        = (lit "pod-name", lit "/remote/path") :=
  ⟨by decide, by decide, by decide, by decide,
    splitPodAndPath_wellformed (lit "pod-name") (lit "/remote/path") (by decide) (by decide)
      (by decide)⟩

/-- C2: the check of `main` on the two halves returned by `splitPodAndPath s` rejects `s`
exactly when `s` is malformed (no `':'`, or nothing before the first `':'`, or nothing
after it); an `s` without `':'` splits into two empty strings; and a run whose positional
argument is `s` ends in the fatal error "invalid or missing pod and path" right after the
scratch directory is created exactly when `s` is malformed, and then no command has been
run. -/
theorem main_rejects_iff_malformed (s : GoString) :
    (((splitPodAndPath s).1 = [] ∨ (splitPodAndPath s).2 = []) ↔ malformed s) ∧
    (colon ∉ s → splitPodAndPath s = ([], [])) ∧
    (∀ (env : Env) (tmp : GoString), env.TempDir = Except.ok tmp → env.Arg0 = s →
      (main env = ([Event.TempDir tmp, Event.Fatal [lit "invalid or missing pod and path"]],
          Exit.status 1) ↔ malformed s)) ∧
    (∀ env : Env, env.Arg0 = s → malformed s →
      (main env).2 = Exit.status 1 ∧ ∀ n a o e, Event.Run n a o e ∉ (main env).1) := by
  refine ⟨rejected_iff_malformed s, splitPodAndPath_colon_absent s, ?_, ?_⟩
  · intro env tmp ht hs
    subst hs
    constructor
    · intro hm
      by_contra hn
      obtain ⟨n, a, o, e, rest, hr⟩ :=
        main_of_accepted env tmp ht (fun h => hn ((rejected_iff_malformed _).mp h))
      rw [hm] at hr
      simp at hr
    · intro hm
      exact main_of_rejected env tmp ht ((rejected_iff_malformed _).mpr hm)
  · intro env hs hm
    subst hs
    have hr := (rejected_iff_malformed _).mpr hm
    cases ht : env.TempDir with
    | error err => simp [main_of_TempDir_error env err ht]
    | ok tmp => simp [main_of_rejected env tmp ht hr]

/-- C2 at the argument `"podname"`, which has no `':'`. -/
theorem main_rejects_iff_malformed_witness :
    splitPodAndPath (lit "podname") = ([], []) ∧
      (main { sampleEnv with Arg0 := lit "podname" }).2 = Exit.status 1 ∧
      ∀ n a o e, Event.Run n a o e ∉ (main { sampleEnv with Arg0 := lit "podname" }).1 :=
  ⟨(main_rejects_iff_malformed (lit "podname")).2.1 (by decide),
    (main_rejects_iff_malformed (lit "podname")).2.2.2 { sampleEnv with Arg0 := lit "podname" }
      rfl (Or.inl (by decide))⟩


/-- C3: `Download` runs the copy binary with `cp`, then `-n <namespace>` if the namespace
is non-empty, then `-c <container>` if the container is non-empty, then `<pod>:<path>`
and the local scratch path; `Upload` runs it with the same list, the last two elements
swapped.  In each case this is the only command the call runs. -/
theorem copy_command_arguments (r : RemoteFile) (stdout stderr : Option Writer) (w : Writer)
    (run : Option GoError) (name : GoString) (args : List GoString) (o e : Option Writer) :
    (Event.Run name args o e ∈ (r.Download stdout stderr run).1 ↔
      name = r.Binary ∧ o = stdout ∧ e = stderr ∧
      args = [lit "cp"] ++ (if r.Namespace ≠ [] then [lit "-n", r.Namespace] else [])
        ++ (if r.Container ≠ [] then [lit "-c", r.Container] else [])
        ++ [r.Pod ++ lit ":" ++ r.Path, r.local_]) ∧
    (Event.Run name args o e ∈ (r.Upload stdout (some w) run).1 ↔
      name = r.Binary ∧ o = stdout ∧ e = some w ∧
      args = [lit "cp"] ++ (if r.Namespace ≠ [] then [lit "-n", r.Namespace] else [])
        ++ (if r.Container ≠ [] then [lit "-c", r.Container] else [])
        ++ [r.local_, r.Pod ++ lit ":" ++ r.Path]) := by
  have hb : r.baseArgs = [lit "cp"] ++
      (if r.Namespace ≠ [] then [lit "-n", r.Namespace] else [])
        ++ (if r.Container ≠ [] then [lit "-c", r.Container] else []) := by
    unfold RemoteFile.baseArgs
    by_cases hn : r.Namespace = [] <;> by_cases hc : r.Container = [] <;>
      simp [hn, hc, Ne.symm, eq_comm]
  constructor
  · simp only [RemoteFile.Download, RemoteFile.remoteSpec, RemoteFile.Local, hb,
      List.mem_singleton, Event.Run.injEq]
    tauto
  · simp only [RemoteFile.Upload, RemoteFile.remoteSpec, RemoteFile.Local, hb,
      List.mem_cons, List.mem_singleton, Event.Run.injEq, false_or, List.not_mem_nil,
      or_false, reduceCtorEq]
    tauto

/-- Go `strings.Join` puts the separator between consecutive elements and nowhere else:
it is the concatenation of the list with the separator interspersed. -/
theorem stringsJoin_eq_flatten_intersperse (elems : List GoString) (sep : GoString) :
    stringsJoin elems sep = (elems.intersperse sep).flatten := by
  induction elems with
  | nil => rfl
  | cons a rest ih =>
    cases rest with
    | nil => simp [stringsJoin]
    | cons b rest => simp [stringsJoin, ih]

theorem baseArgs_eq (r : RemoteFile) :
    r.baseArgs = [lit "cp"] ++ (if r.Namespace ≠ [] then [lit "-n", r.Namespace] else [])
      ++ (if r.Container ≠ [] then [lit "-c", r.Container] else []) := by
  unfold RemoteFile.baseArgs
  by_cases hn : r.Namespace = [] <;> by_cases hc : r.Container = [] <;>
    simp [hn, hc, Ne.symm, eq_comm]

/-- C10: with a writer `w` as `stderr`, `Upload` performs, before it runs the copy
command, two writes to `w` that make up one line: the binary, a space, the argument list
of the command (`cp`, the optional `-n` and `-c` pairs, the local path, `<pod>:<path>`)
with a single space between consecutive arguments, and a newline; the command is then run
with that same list; `Upload` writes nothing else, to `w` or to any other writer.  For the
file `k`, container `c1`, `p:/f`, local `/t/edit`, the bytes written are those of
`k cp -c c1 /t/edit p:/f` and a newline. -/
theorem Upload_log_line (r : RemoteFile) (stdout : Option Writer) (w : Writer)
    (run : Option GoError) :
    (r.Upload stdout (some w) run).1 =
      [Event.Write w
          (r.Binary ++ [32] ++
            (List.intersperse [32]
              ([[99, 112]] ++ (if r.Namespace ≠ [] then [[45, 110], r.Namespace] else [])
                ++ (if r.Container ≠ [] then [[45, 99], r.Container] else [])
                ++ [r.local_, r.Pod ++ [58] ++ r.Path])).flatten),
        Event.Write w [10],
        Event.Run r.Binary
          ([[99, 112]] ++ (if r.Namespace ≠ [] then [[45, 110], r.Namespace] else [])
            ++ (if r.Container ≠ [] then [[45, 99], r.Container] else [])
            ++ [r.local_, r.Pod ++ [58] ++ r.Path]) stdout (some w)] ∧
    (∀ w', written w' (r.Upload stdout (some w) run).1 =
      if w' = w then
        r.Binary ++ [32] ++
          (List.intersperse [32]
            ([[99, 112]] ++ (if r.Namespace ≠ [] then [[45, 110], r.Namespace] else [])
              ++ (if r.Container ≠ [] then [[45, 99], r.Container] else [])
              ++ [r.local_, r.Pod ++ [58] ++ r.Path])).flatten
          ++ [10]
      else []) ∧
    written osStderr (tinyFile.Upload none (some osStderr) none).1 =
      [107, 32, 99, 112, 32, 45, 99, 32, 99, 49, 32, 47, 116, 47, 101, 100, 105, 116, 32,
        112, 58, 47, 102, 10] ∧
    written osStderr (sampleFile.Upload none (some osStderr) none).1 =
      lit "kubectl cp -n prod /tmp/kubectl_editfile1/edit pod-name:/remote/path\n" := by
  have hnl : ['\n'.toUInt8] = ([10] : GoString) := by decide
  have hsp : lit " " = [32] := by decide
  have hcp : lit "cp" = [99, 112] := by decide
  have hn : lit "-n" = [45, 110] := by decide
  have hc : lit "-c" = [45, 99] := by decide
  have hco : lit ":" = [58] := by decide
  have hev : (r.Upload stdout (some w) run).1 =
      [Event.Write w
          (r.Binary ++ [32] ++
            (List.intersperse [32]
              ([[99, 112]] ++ (if r.Namespace ≠ [] then [[45, 110], r.Namespace] else [])
                ++ (if r.Container ≠ [] then [[45, 99], r.Container] else [])
                ++ [r.local_, r.Pod ++ [58] ++ r.Path])).flatten),
        Event.Write w [10],
        Event.Run r.Binary
          ([[99, 112]] ++ (if r.Namespace ≠ [] then [[45, 110], r.Namespace] else [])
            ++ (if r.Container ≠ [] then [[45, 99], r.Container] else [])
            ++ [r.local_, r.Pod ++ [58] ++ r.Path]) stdout (some w)] := by
    simp only [RemoteFile.Upload, RemoteFile.Local, RemoteFile.remoteSpec, baseArgs_eq,
      stringsJoin_eq_flatten_intersperse, hnl, hsp, hcp, hn, hc, hco]
  refine ⟨hev, ?_, by decide, by decide⟩
  intro w'
  rw [hev]
  by_cases hw : w = w'
  · subst hw
    simp [written]
  · simp [written, hw, Ne.symm hw]

theorem stopEditorAndFail_nil (kill : Option GoError) (err : GoError) :
    stopEditorAndFail none kill err = ([], LoopEnd.panicked) := rfl

theorem syncLoop_write_event (file : RemoteFile) (stdout stderr : Option Writer) (t : Tick)
    (ts : List Tick) (op : Nat) (hsel : t.selected = some (Comm.Events true op))
    (hw : op &&& fsnotifyWrite = fsnotifyWrite) :
    syncLoop file stdout stderr (t :: ts) =
      match file.Upload stdout stderr t.run with
      | (evs, Ret.panicked) => (Event.UploadCall :: evs, LoopEnd.panicked)
      | (evs, Ret.returned none) =>
        (Event.UploadCall :: evs ++ Event.UploadReturn :: (syncLoop file stdout stderr ts).1,
          (syncLoop file stdout stderr ts).2)
      | (evs, Ret.returned (some err)) =>
        (Event.UploadCall :: evs ++
            Event.UploadReturn :: (stopEditorAndFail t.ProcessState t.kill err).1,
          (stopEditorAndFail t.ProcessState t.kill err).2) := by
  rw [syncLoop, hsel]
  simp only [hw, if_true]

theorem syncLoop_watcher_error (file : RemoteFile) (stdout stderr : Option Writer) (t : Tick)
    (ts : List Tick) (err : GoError) (hsel : t.selected = some (Comm.Errors true err)) :
    syncLoop file stdout stderr (t :: ts) = stopEditorAndFail t.ProcessState t.kill err := by
  rw [syncLoop, hsel]

theorem syncLoop_editor_exit (file : RemoteFile) (stdout stderr : Option Writer) (t : Tick)
    (ts : List Tick) (hsel : t.selected = some Comm.editorExited) :
    syncLoop file stdout stderr (t :: ts) =
      ([Event.Println [lit "Shutting down."]], LoopEnd.shutdown) := by
  rw [syncLoop, hsel]

/-- With a writer as `stderr` a write event is handled as the specification describes:
the upload command is run between the call and the return of `Upload`, and when it
succeeds the loop goes on with the next iteration. -/
theorem syncLoop_write_event_with_stderr (file : RemoteFile) (stdout : Option Writer)
    (w : Writer) (t : Tick) (ts : List Tick) (op : Nat)
    (hsel : t.selected = some (Comm.Events true op))
    (hw : op &&& fsnotifyWrite = fsnotifyWrite) (hrun : t.run = none) :
    syncLoop file stdout (some w) (t :: ts) =
      (Event.UploadCall :: (file.Upload stdout (some w) none).1 ++
          Event.UploadReturn :: (syncLoop file stdout (some w) ts).1,
        (syncLoop file stdout (some w) ts).2) := by
  rw [syncLoop_write_event file stdout (some w) t ts op hsel hw, hrun]
  rfl

/-- C4, as the code behaves: `main` calls `file.Upload(nil, nil)`, and `Upload` begins by
calling `Write` on its `stderr` argument, so on a write event the call panics before the
copy command is run; the loop does not go on to the next iteration, whatever the copy
command would have returned. -/
theorem write_event_panics_in_Upload (file : RemoteFile) (t : Tick) (ts : List Tick)
    (op : Nat) (hsel : t.selected = some (Comm.Events true op))
    (hw : op &&& fsnotifyWrite = fsnotifyWrite) :
    file.Upload none none t.run = ([], Ret.panicked) ∧
      syncLoop file none none (t :: ts) = ([Event.UploadCall], LoopEnd.panicked) := by
  refine ⟨rfl, ?_⟩
  rw [syncLoop_write_event file none none t ts op hsel hw]
  rfl

/-- C4 at a run where the first thing the loop sees is a write event: the process ends
with the exit status of a panic and the upload command was never run. -/
theorem write_event_panics_in_Upload_witness :
    writeTick.selected = some (Comm.Events true fsnotifyWrite) ∧
      syncLoop sampleFile none none [writeTick, writeTick]
        = ([Event.UploadCall], LoopEnd.panicked) ∧
      (main { sampleEnv with schedule := [writeTick, writeTick] }).2 = Exit.status 2 ∧
      Event.UploadReturn ∉ (main { sampleEnv with schedule := [writeTick, writeTick] }).1 :=
  ⟨by decide,
    (write_event_panics_in_Upload sampleFile writeTick [writeTick] fsnotifyWrite (by decide)
      (by decide)).2,
    by decide, by decide⟩

/-- When the editor was terminated by a signal, `Exited()` is false and the fatal
branches request `Kill` although the process has ended. -/
theorem fatal_branch_signaled_editor (kill : Option GoError) (err : GoError) :
    Event.Kill ∈ (stopEditorAndFail (some { exited := false }) kill err).1 := by
  cases kill <;> simp [stopEditorAndFail, ProcessState.Exited]

/-- When the editor has exited by itself the fatal branches log the error and request no
`Kill`. -/
theorem fatal_branch_exited_editor (kill : Option GoError) (err : GoError) :
    stopEditorAndFail (some { exited := true }) kill err =
      ([Event.Fatal [err]], LoopEnd.fatal) := rfl

/-- C5, as the code behaves: in both fatal branches the test `editCmd.ProcessState.Exited()`
comes first, and while the editor is still running `editCmd.ProcessState` is nil, so the
test panics: whether the watcher delivered an error or `Upload` returned one, no `Kill` is
requested, `log.Fatal` is not reached, and the loop ends by the panic. -/
theorem fatal_branch_running_editor_panics (file : RemoteFile) (stdout stderr : Option Writer)
    (t : Tick) (ts : List Tick) (err : GoError) (hps : t.ProcessState = none) :
    (t.selected = some (Comm.Errors true err) →
      syncLoop file stdout stderr (t :: ts) = ([], LoopEnd.panicked)) ∧
    (∀ (op : Nat) (w : Writer), t.selected = some (Comm.Events true op) →
      op &&& fsnotifyWrite = fsnotifyWrite → t.run = some err →
      syncLoop file stdout (some w) (t :: ts) =
        (Event.UploadCall :: (file.Upload stdout (some w) (some err)).1 ++
          [Event.UploadReturn], LoopEnd.panicked)) := by
  constructor
  · intro hsel
    rw [syncLoop_watcher_error file stdout stderr t ts err hsel, hps]
    rfl
  · intro op w hsel hw hrun
    rw [syncLoop_write_event file stdout (some w) t ts op hsel hw, hrun, hps]
    rfl

/-- C5 at a run where the watcher reports an error while the editor is running: the
process ends with the exit status of a panic, without `Kill` and without the fatal
error. -/
theorem fatal_branch_running_editor_panics_witness :
    syncLoop sampleFile none none [watcherErrorTick] = ([], LoopEnd.panicked) ∧
      (main { sampleEnv with schedule := [watcherErrorTick] }).2 = Exit.status 2 ∧
      Event.Kill ∉ (main { sampleEnv with schedule := [watcherErrorTick] }).1 ∧
      Event.Fatal [lit "boom"] ∉ (main { sampleEnv with schedule := [watcherErrorTick] }).1 :=
  ⟨(fatal_branch_running_editor_panics sampleFile none none watcherErrorTick [] (lit "boom")
      rfl).1 (by decide),
    by decide, by decide, by decide⟩

/-- C6 as stated fails: with the editor-exit signal and a write event both ready, the
`select` may proceed with the write event, and the loop then calls `Upload` (with a
writer as `stderr` the upload command is run) instead of shutting down. -/
theorem editor_exit_has_no_priority :
    Comm.editorExited ∈ raceTick.ready ∧
      Event.UploadCall ∈ (main { sampleEnv with schedule := [raceTick] }).1 ∧
      Event.Println [lit "Shutting down."] ∉ (main { sampleEnv with schedule := [raceTick] }).1 ∧
      (syncLoop sampleFile none (some osStderr) [raceTick, exitTick]).1 =
        Event.UploadCall :: (sampleFile.Upload none (some osStderr) none).1 ++
          [Event.UploadReturn, Event.Println [lit "Shutting down."]] := by
  decide

/-- C6 amended: when the `select` proceeds with the editor-exit signal, as it does
whenever that is the only communication ready, the loop logs the shutdown and is left
normally without calling `Upload`, whatever is scheduled after. -/
theorem editor_exit_selected_shuts_down (file : RemoteFile) (stdout stderr : Option Writer)
    (t : Tick) (ts : List Tick)
    (h : t.ready = [Comm.editorExited] ∨ t.selected = some Comm.editorExited) :
    syncLoop file stdout stderr (t :: ts) =
        ([Event.Println [lit "Shutting down."]], LoopEnd.shutdown) ∧
      Event.UploadCall ∉ (syncLoop file stdout stderr (t :: ts)).1 := by
  have hsel : t.selected = some Comm.editorExited := by
    rcases h with h | h
    · simp [Tick.selected, h, Nat.mod_one]
    · exact h
  rw [syncLoop_editor_exit file stdout stderr t ts hsel]
  simp

/-- C6 amended, at a schedule where only the editor exit is ready and write events
follow. -/
theorem editor_exit_selected_shuts_down_witness :
    exitTick.ready = [Comm.editorExited] ∧
      syncLoop sampleFile none none [exitTick, writeTick] =
        ([Event.Println [lit "Shutting down."]], LoopEnd.shutdown) :=
  ⟨rfl, (editor_exit_selected_shuts_down sampleFile none none exitTick [writeTick]
    (Or.inl rfl)).1⟩


theorem stopEditorAndFail_events (P : Event → Prop) (hk : P Event.Kill)
    (hp : ∀ v, P (Event.Println v)) (hf : ∀ v, P (Event.Fatal v))
    (ps : Option ProcessState) (kill : Option GoError) (err : GoError) :
    ∀ ev ∈ (stopEditorAndFail ps kill err).1, P ev := by
  intro ev hev
  unfold stopEditorAndFail at hev
  rcases ps with _ | p
  · simp at hev
  · rcases kill with _ | kerr <;> by_cases hx : p.Exited = true <;> simp [hx] at hev
    all_goals
      first
        | (rcases hev with h | h | h <;> subst h <;> first | exact hk | exact hp _ | exact hf _)
        | (rcases hev with h | h <;> subst h <;> first | exact hk | exact hp _ | exact hf _)
        | (subst hev; exact hf _)

theorem Upload_events (P : Event → Prop) (hw : ∀ w p, P (Event.Write w p))
    (hrun : ∀ n a o e, P (Event.Run n a o e)) (r : RemoteFile) (stdout stderr : Option Writer)
    (run : Option GoError) : ∀ ev ∈ (r.Upload stdout stderr run).1, P ev := by
  intro ev hev
  rcases stderr with _ | w
  · simp [RemoteFile.Upload] at hev
  · simp only [RemoteFile.Upload, List.mem_cons, List.mem_singleton, List.not_mem_nil,
      or_false] at hev
    rcases hev with h | h | h <;> subst h <;> first | exact hw _ _ | exact hrun _ _ _ _

theorem syncLoop_events (P : Event → Prop) (hc : P Event.UploadCall)
    (hr : P Event.UploadReturn) (hk : P Event.Kill) (hw : ∀ w p, P (Event.Write w p))
    (hrun : ∀ n a o e, P (Event.Run n a o e)) (hp : ∀ v, P (Event.Println v))
    (hf : ∀ v, P (Event.Fatal v)) (file : RemoteFile) (stdout stderr : Option Writer)
    (ticks : List Tick) : ∀ ev ∈ (syncLoop file stdout stderr ticks).1, P ev := by
  induction ticks with
  | nil => simp [syncLoop]
  | cons t ts ih =>
    have hstop := stopEditorAndFail_events P hk hp hf
    have hup := Upload_events P hw hrun file stdout stderr t.run
    rcases hsel : t.selected with _ | c
    · simp [syncLoop, hsel]
    · rcases c with _ | ⟨ok, op⟩ | ⟨ok, err⟩
      · rw [syncLoop_editor_exit file stdout stderr t ts hsel]
        intro ev hev
        rw [List.mem_singleton] at hev
        subst hev
        exact hp _
      · cases ok
        · rw [syncLoop, hsel]
          exact ih
        · by_cases hop : op &&& fsnotifyWrite = fsnotifyWrite
          · rw [syncLoop_write_event file stdout stderr t ts op hsel hop]
            rcases hU : file.Upload stdout stderr t.run with ⟨evs, ret⟩
            rw [hU] at hup
            rcases ret with ⟨_ | err'⟩ | _
            · intro ev hev
              simp only [List.mem_cons, List.mem_append] at hev
              rcases hev with (h | h) | (h | h)
              · subst h; exact hc
              · exact hup ev h
              · subst h; exact hr
              · exact ih ev h
            · intro ev hev
              simp only [List.mem_cons, List.mem_append] at hev
              rcases hev with (h | h) | (h | h)
              · subst h; exact hc
              · exact hup ev h
              · subst h; exact hr
              · exact hstop _ _ _ ev h
            · intro ev hev
              simp only [List.mem_cons] at hev
              rcases hev with h | h
              · subst h; exact hc
              · exact hup ev h
          · rw [syncLoop, hsel]
            simp only [hop, if_false]
            exact ih
      · cases ok
        · rw [syncLoop, hsel]
          exact ih
        · rw [syncLoop_watcher_error file stdout stderr t ts err hsel]
          exact hstop _ _ _


/-! ## The paths of `main` -/

theorem main_of_Download_error (env : Env) (tmp : GoString) (err : GoError)
    (ht : env.TempDir = Except.ok tmp)
    (h : ¬ ((splitPodAndPath env.Arg0).1 = [] ∨ (splitPodAndPath env.Arg0).2 = []))
    (hd : env.download = some err) :
    main env =
      (Event.TempDir tmp ::
        ((sessionFile env (scratchFile env tmp)).Download (some osStdout) (some osStderr)
          env.download).1 ++ [Event.Fatal [err]], Exit.status 1) := by
  simp only [main, New, ht]
  rw [if_neg (by simpa [sessionFile] using h)]
  simp [RemoteFile.Download, hd, exitWith]

theorem main_of_NewWatcher_error (env : Env) (tmp : GoString) (err : GoError)
    (ht : env.TempDir = Except.ok tmp)
    (h : ¬ ((splitPodAndPath env.Arg0).1 = [] ∨ (splitPodAndPath env.Arg0).2 = []))
    (hd : env.download = none) (hw : env.NewWatcher = some err) :
    main env =
      (Event.TempDir tmp ::
        ((sessionFile env (scratchFile env tmp)).Download (some osStdout) (some osStderr)
          env.download).1 ++ [Event.Fatal [err]], Exit.status 1) := by
  simp only [main, New, ht]
  rw [if_neg (by simpa [sessionFile] using h)]
  simp [RemoteFile.Download, hd, hw, exitWith]

theorem main_of_session (env : Env) (tmp : GoString) (ht : env.TempDir = Except.ok tmp)
    (h : ¬ ((splitPodAndPath env.Arg0).1 = [] ∨ (splitPodAndPath env.Arg0).2 = []))
    (hd : env.download = none) (hw : env.NewWatcher = none) :
    main env =
      exitWith
        (Event.TempDir tmp ::
          ((sessionFile env (scratchFile env tmp)).Download (some osStdout) (some osStderr)
            env.download).1 ++ (editSession env (sessionFile env (scratchFile env tmp))).1)
        [Event.WatcherClose, Event.RemoveAll tmp]
        (editSession env (sessionFile env (scratchFile env tmp))).2 := by
  simp only [main, New, ht]
  rw [if_neg (by simpa [sessionFile] using h)]
  simp [RemoteFile.Download, hd, hw, RemoteFile.Close, sessionFile, scratchFile]


theorem editSession_events (P : Event → Prop) (hc : P Event.UploadCall)
    (hr : P Event.UploadReturn) (hk : P Event.Kill) (hw : ∀ w p, P (Event.Write w p))
    (hrun : ∀ n a o e, P (Event.Run n a o e)) (hp : ∀ v, P (Event.Println v))
    (hf : ∀ v, P (Event.Fatal v)) (hs : ∀ n a, P (Event.Start n a))
    (ha : ∀ p, P (Event.WatcherAdd p)) (env : Env) (file : RemoteFile) :
    ∀ ev ∈ (editSession env file).1, P ev := by
  intro ev hev
  unfold editSession at hev
  rcases hadd : env.Add with _ | err
  · simp only [hadd, List.mem_append, List.mem_cons, List.mem_singleton, List.not_mem_nil,
      or_false] at hev
    rcases hev with (h | h) | h
    · subst h; exact hs _ _
    · subst h; exact ha _
    · exact syncLoop_events P hc hr hk hw hrun hp hf file none none env.schedule ev h
  · rcases hst : env.Start with _ | serr
    · rcases hkill : env.kill with _ | kerr
      · simp only [hadd, hst, hkill, List.mem_append, List.mem_cons, List.mem_singleton,
          List.not_mem_nil, or_false] at hev
        rcases hev with (h | h) | (h | h)
        · subst h; exact hs _ _
        · subst h; exact ha _
        · subst h; exact hk
        · subst h; exact hf _
      · simp only [hadd, hst, hkill, List.mem_append, List.mem_cons, List.mem_singleton,
          List.not_mem_nil, or_false] at hev
        rcases hev with (h | h) | (h | h | h)
        · subst h; exact hs _ _
        · subst h; exact ha _
        · subst h; exact hk
        · subst h; exact hp _
        · subst h; exact hf _
    · simp only [hadd, hst, List.mem_cons, List.mem_singleton, List.not_mem_nil,
        or_false] at hev
      rcases hev with h | h
      · subst h; exact hs _ _
      · subst h; exact ha _

theorem editSession_no_RemoveAll (env : Env) (file : RemoteFile) (p : GoString) :
    Event.RemoveAll p ∉ (editSession env file).1 := by
  intro hm
  exact editSession_events (fun ev => ev ≠ Event.RemoveAll p) (by simp) (by simp) (by simp)
    (by simp) (by simp) (by simp) (by simp) (by simp) (by simp) env file _ hm rfl

theorem Download_no_RemoveAll (r : RemoteFile) (o e : Option Writer) (run : Option GoError)
    (p : GoString) : Event.RemoveAll p ∉ (r.Download o e run).1 := by
  simp [RemoteFile.Download]

/-- C7, as the code behaves: every exit of `main` through `log.Fatal` (exit status 1)
leaves by `os.Exit`, so the deferred `file.Close()` is not executed: no `os.RemoveAll` is
performed on any such path, and the scratch directory created by `New` stays behind. -/
theorem fatal_exit_skips_Close (env : Env) (h : (main env).2 = Exit.status 1) :
    ∀ p, Event.RemoveAll p ∉ (main env).1 := by
  intro p
  rcases ht : env.TempDir with err | tmp
  · simp [main_of_TempDir_error env err ht]
  · by_cases hacc : (splitPodAndPath env.Arg0).1 = [] ∨ (splitPodAndPath env.Arg0).2 = []
    · simp [main_of_rejected env tmp ht hacc]
    · rcases hd : env.download with _ | derr
      · rcases hw : env.NewWatcher with _ | werr
        · have hno := editSession_no_RemoveAll env (sessionFile env (scratchFile env tmp)) p
          have hdl := Download_no_RemoveAll (sessionFile env (scratchFile env tmp))
            (some osStdout) (some osStderr) env.download p
          rw [main_of_session env tmp ht hacc hd hw] at h ⊢
          revert h hno
          generalize editSession env _ = ses
          rcases ses with ⟨evs, e⟩
          cases e <;> simp [exitWith, hdl]
        · rw [main_of_NewWatcher_error env tmp werr ht hacc hd hw]
          simp [Download_no_RemoveAll]
      · rw [main_of_Download_error env tmp derr ht hacc hd]
        simp [Download_no_RemoveAll]

/-- C7 at the argument `"podname"`: the scratch directory is created, the program ends
with status 1, and no `os.RemoveAll` is performed. -/
theorem fatal_exit_skips_Close_witness :
    (main { sampleEnv with Arg0 := lit "podname" }).1 =
        [Event.TempDir (lit "/tmp/kubectl_editfile1"),
          Event.Fatal [lit "invalid or missing pod and path"]] ∧
      ∀ p, Event.RemoveAll p ∉ (main { sampleEnv with Arg0 := lit "podname" }).1 :=
  ⟨by decide, fatal_exit_skips_Close { sampleEnv with Arg0 := lit "podname" } (by decide)⟩

/-- On a normal editor exit (status 0) and on a panic (status 2) the deferred `Close`
runs last: the run ends with `os.RemoveAll` of the scratch directory. -/
theorem return_and_panic_run_Close (env : Env) (tmp : GoString)
    (ht : env.TempDir = Except.ok tmp)
    (h : (main env).2 = Exit.status 0 ∨ (main env).2 = Exit.status 2) :
    ∃ pre, (main env).1 = pre ++ [Event.RemoveAll tmp] := by
  by_cases hacc : (splitPodAndPath env.Arg0).1 = [] ∨ (splitPodAndPath env.Arg0).2 = []
  · simp [main_of_rejected env tmp ht hacc] at h
  · rcases hd : env.download with _ | derr
    · rcases hw : env.NewWatcher with _ | werr
      · rw [main_of_session env tmp ht hacc hd hw] at h ⊢
        revert h
        generalize editSession env _ = ses
        generalize Event.TempDir tmp :: _ = pre
        rcases ses with ⟨evs, e⟩
        cases e <;> simp [exitWith]
        · exact ⟨pre ++ evs ++ [Event.WatcherClose], by simp⟩
        · exact ⟨pre ++ evs ++ [Event.WatcherClose], by simp⟩
      · simp [main_of_NewWatcher_error env tmp werr ht hacc hd hw] at h
    · simp [main_of_Download_error env tmp derr ht hacc hd] at h

/-- C8, as the code behaves: the error returned by `editCmd.Start()` is discarded.  When
the editor cannot be started and the watch is registered, the loop is entered all the
same; once the editor-exit signal is selected the program logs the normal shutdown and
ends with status 0, without any fatal error. -/
theorem failed_editor_start_is_ignored (env : Env) (tmp : GoString) (err : GoError)
    (t : Tick) (ts : List Tick) (ht : env.TempDir = Except.ok tmp)
    (hacc : ¬ ((splitPodAndPath env.Arg0).1 = [] ∨ (splitPodAndPath env.Arg0).2 = []))
    (hd : env.download = none) (hw : env.NewWatcher = none) (_hs : env.Start = some err)
    (ha : env.Add = none) (hsch : env.schedule = t :: ts)
    (hsel : t.selected = some Comm.editorExited) :
    (main env).2 = Exit.status 0 ∧
      Event.Println [lit "Shutting down."] ∈ (main env).1 ∧
      ∀ v, Event.Fatal v ∉ (main env).1 := by
  have hses : editSession env (sessionFile env (scratchFile env tmp)) =
      ([Event.Start (if env.EDITOR = [] then lit "nano" else env.EDITOR)
          [(sessionFile env (scratchFile env tmp)).Local],
        Event.WatcherAdd (sessionFile env (scratchFile env tmp)).Local,
        Event.Println [lit "Shutting down."]], LoopEnd.shutdown) := by
    simp [editSession, ha, hsch, syncLoop_editor_exit _ none none t ts hsel]
  rw [main_of_session env tmp ht hacc hd hw, hses]
  simp [exitWith, RemoteFile.Download]

/-- C8 at a run whose editor cannot be started (`Start` returns an error): status 0 and
the shutdown message. -/
theorem failed_editor_start_is_ignored_witness :
    (main { sampleEnv with EDITOR := lit "/nonexistent", Start := some (lit "no such file"),
                           schedule := [notStartedTick] }).2 = Exit.status 0 ∧
      Event.Println [lit "Shutting down."] ∈
        (main { sampleEnv with EDITOR := lit "/nonexistent",
                               Start := some (lit "no such file"),
                               schedule := [notStartedTick] }).1 :=
  ⟨(failed_editor_start_is_ignored
      { sampleEnv with EDITOR := lit "/nonexistent", Start := some (lit "no such file"),
                       schedule := [notStartedTick] }
      (lit "/tmp/kubectl_editfile1") (lit "no such file") notStartedTick [] rfl (by decide) rfl rfl
      rfl rfl rfl (by decide)).1,
    by decide⟩


/-! ## Uploads in progress -/

theorem uploadsInProgress_append (a b : List Event) :
    uploadsInProgress (a ++ b) = uploadsInProgress a + uploadsInProgress b := by
  simp [uploadsInProgress]

theorem uploadsInProgress_cons (e : Event) (a : List Event) :
    uploadsInProgress (e :: a) = uploadDelta e + uploadsInProgress a := by
  simp [uploadsInProgress]

theorem uploadsInProgress_neutral (a : List Event) (h : ∀ e ∈ a, uploadDelta e = 0) :
    uploadsInProgress a = 0 := by
  induction a with
  | nil => rfl
  | cons e a ih =>
    rw [uploadsInProgress_cons, h e (List.mem_cons_self _ _),
      ih (fun x hx => h x (List.mem_cons_of_mem _ hx))]
    rfl

theorem uploadsInProgress_take_neutral (a : List Event) (h : ∀ e ∈ a, uploadDelta e = 0)
    (k : Nat) : uploadsInProgress (a.take k) = 0 :=
  uploadsInProgress_neutral _ (fun e he => h e (List.mem_of_mem_take he))

theorem AtMostOneUpload_neutral (a : List Event) (h : ∀ e ∈ a, uploadDelta e = 0) :
    AtMostOneUpload a := by
  intro k
  rw [uploadsInProgress_take_neutral a h k]
  omega

theorem AtMostOneUpload_neutral_append (a b : List Event) (h : ∀ e ∈ a, uploadDelta e = 0)
    (hb : AtMostOneUpload b) : AtMostOneUpload (a ++ b) := by
  intro k
  rw [List.take_append_eq_append_take, uploadsInProgress_append,
    uploadsInProgress_take_neutral a h k]
  simpa using hb (k - a.length)

theorem AtMostOneUpload_append_neutral (a b : List Event) (ha : AtMostOneUpload a)
    (h : ∀ e ∈ b, uploadDelta e = 0) : AtMostOneUpload (a ++ b) := by
  intro k
  rw [List.take_append_eq_append_take, uploadsInProgress_append,
    uploadsInProgress_take_neutral b h (k - a.length)]
  simpa using ha k

theorem AtMostOneUpload_call (evs : List Event) (h : ∀ e ∈ evs, uploadDelta e = 0) :
    AtMostOneUpload (Event.UploadCall :: evs) := by
  intro k
  cases k with
  | zero => simp [uploadsInProgress]
  | succ k =>
    rw [List.take_succ_cons, uploadsInProgress_cons, uploadsInProgress_take_neutral evs h k]
    simp [uploadDelta]

theorem AtMostOneUpload_call_return (evs rest : List Event)
    (h : ∀ e ∈ evs, uploadDelta e = 0) (hrest : AtMostOneUpload rest) :
    AtMostOneUpload (Event.UploadCall :: evs ++ Event.UploadReturn :: rest) := by
  intro k
  cases k with
  | zero => simp [uploadsInProgress]
  | succ k =>
    rw [List.cons_append, List.take_succ_cons, uploadsInProgress_cons,
      List.take_append_eq_append_take, uploadsInProgress_append,
      uploadsInProgress_take_neutral evs h k]
    cases k - evs.length with
    | zero => simp [uploadsInProgress, uploadDelta]
    | succ j =>
      rw [List.take_succ_cons, uploadsInProgress_cons]
      have := hrest j
      simp only [uploadDelta]
      omega

theorem Upload_neutral (r : RemoteFile) (stdout stderr : Option Writer)
    (run : Option GoError) : ∀ e ∈ (r.Upload stdout stderr run).1, uploadDelta e = 0 :=
  Upload_events (fun e => uploadDelta e = 0) (fun _ _ => rfl) (fun _ _ _ _ => rfl) r stdout
    stderr run

theorem stopEditorAndFail_neutral (ps : Option ProcessState) (kill : Option GoError)
    (err : GoError) : ∀ e ∈ (stopEditorAndFail ps kill err).1, uploadDelta e = 0 :=
  stopEditorAndFail_events (fun e => uploadDelta e = 0) rfl (fun _ => rfl) (fun _ => rfl) ps
    kill err

theorem syncLoop_AtMostOneUpload (file : RemoteFile) (stdout stderr : Option Writer)
    (ticks : List Tick) : AtMostOneUpload (syncLoop file stdout stderr ticks).1 := by
  induction ticks with
  | nil => exact AtMostOneUpload_neutral _ (by simp [syncLoop])
  | cons t ts ih =>
    rcases hsel : t.selected with _ | c
    · exact AtMostOneUpload_neutral _ (by simp [syncLoop, hsel])
    · rcases c with _ | ⟨ok, op⟩ | ⟨ok, err⟩
      · rw [syncLoop_editor_exit file stdout stderr t ts hsel]
        exact AtMostOneUpload_neutral _ (by simp [uploadDelta])
      · cases ok
        · rw [syncLoop, hsel]
          exact ih
        · by_cases hop : op &&& fsnotifyWrite = fsnotifyWrite
          · rw [syncLoop_write_event file stdout stderr t ts op hsel hop]
            have hup := Upload_neutral file stdout stderr t.run
            rcases hU : file.Upload stdout stderr t.run with ⟨evs, ret⟩
            rw [hU] at hup
            rcases ret with ⟨_ | err'⟩ | _
            · exact AtMostOneUpload_call_return evs _ hup ih
            · exact AtMostOneUpload_call_return evs _ hup
                (AtMostOneUpload_neutral _ (stopEditorAndFail_neutral _ _ _))
            · exact AtMostOneUpload_call evs hup
          · rw [syncLoop, hsel]
            simp only [hop, if_false]
            exact ih
      · cases ok
        · rw [syncLoop, hsel]
          exact ih
        · rw [syncLoop_watcher_error file stdout stderr t ts err hsel]
          exact AtMostOneUpload_neutral _ (stopEditorAndFail_neutral _ _ _)

theorem editSession_AtMostOneUpload (env : Env) (file : RemoteFile) :
    AtMostOneUpload (editSession env file).1 := by
  unfold editSession
  rcases hadd : env.Add with _ | err
  · exact AtMostOneUpload_neutral_append _ _ (by simp [uploadDelta])
      (syncLoop_AtMostOneUpload file none none env.schedule)
  · rcases hst : env.Start with _ | serr
    · rcases hkill : env.kill with _ | kerr <;>
        exact AtMostOneUpload_neutral _ (by simp [uploadDelta])
    · exact AtMostOneUpload_neutral _ (by simp [uploadDelta])

theorem main_AtMostOneUpload (env : Env) : AtMostOneUpload (main env).1 := by
  rcases ht : env.TempDir with err | tmp
  · rw [main_of_TempDir_error env err ht]
    exact AtMostOneUpload_neutral _ (by simp [uploadDelta])
  · by_cases hacc : (splitPodAndPath env.Arg0).1 = [] ∨ (splitPodAndPath env.Arg0).2 = []
    · rw [main_of_rejected env tmp ht hacc]
      exact AtMostOneUpload_neutral _ (by simp [uploadDelta])
    · rcases hd : env.download with _ | derr
      · rcases hw : env.NewWatcher with _ | werr
        · rw [main_of_session env tmp ht hacc hd hw]
          have hses := editSession_AtMostOneUpload env (sessionFile env (scratchFile env tmp))
          have hpre : AtMostOneUpload
              (Event.TempDir tmp ::
                ((sessionFile env (scratchFile env tmp)).Download (some osStdout)
                  (some osStderr) env.download).1 ++
                (editSession env (sessionFile env (scratchFile env tmp))).1) :=
            AtMostOneUpload_neutral_append _ _
              (by simp [RemoteFile.Download, uploadDelta]) hses
          have hall := AtMostOneUpload_append_neutral _
            [Event.WatcherClose, Event.RemoveAll tmp] hpre (by simp [uploadDelta])
          revert hpre hall
          generalize editSession env _ = ses
          rcases ses with ⟨evs, e⟩
          cases e <;> simp only [exitWith] <;> intro hpre hall <;> assumption
        · rw [main_of_NewWatcher_error env tmp werr ht hacc hd hw]
          exact AtMostOneUpload_neutral _ (by simp [RemoteFile.Download, uploadDelta])
      · rw [main_of_Download_error env tmp derr ht hacc hd]
        exact AtMostOneUpload_neutral _ (by simp [RemoteFile.Download, uploadDelta])

/-- C9: in every trace of the loop, whatever is delivered to it and whatever is passed to
`Upload`, and in every trace of `main`, no prefix has more than one `Upload` call in
progress: a call of `Upload` is entered only after the previous one has returned.  With
two write events back to back the second call follows the return of the first. -/
theorem at_most_one_Upload_in_progress :
    (∀ (file : RemoteFile) (stdout stderr : Option Writer) (ticks : List Tick) (k : Nat),
      uploadsInProgress ((syncLoop file stdout stderr ticks).1.take k) ≤ 1) ∧
    (∀ (env : Env) (k : Nat), uploadsInProgress ((main env).1.take k) ≤ 1) ∧
    (syncLoop sampleFile none (some osStderr) [writeTick, writeTick]).1 =
      Event.UploadCall :: (sampleFile.Upload none (some osStderr) none).1 ++
        Event.UploadReturn ::
          Event.UploadCall :: (sampleFile.Upload none (some osStderr) none).1 ++
            [Event.UploadReturn] :=
  ⟨fun file stdout stderr ticks k => (syncLoop_AtMostOneUpload file stdout stderr ticks k).2,
    fun env k => (main_AtMostOneUpload env k).2, by decide⟩

end EditFile
